import Mathlib

/-!
# Verification of the quokkamesh trust and messaging core

Shallow embedding of the canonical encoder (`serialize.ts`), the identity
layer (`keys.ts`, idealized), the delegation layer (`delegation.ts`), the
envelope protocol (`envelope.ts`), payload validation (`standard-tools.ts`),
the tool registry (`tools.ts`) and the agent orchestrator (`agent.ts`),
together with proofs and refutations of the specification's claims.

JavaScript structured values are modelled by the inductive type `Json`
(numbers are modelled as integers, which covers every numeric field of the
protocol: timestamps and payload numbers).  The byte output of
`TextEncoder.encode ∘ JSON.stringify` is modelled as a `List Char`
(one scalar per byte position; all protocol text is ASCII).
-/

/-- A JavaScript structured value as accepted by `canonicalize` in
`serialize.ts`.  Object fields are kept in insertion order, exactly as a JS
object presents its keys to `Object.keys`. -/
inductive Json where
  | null : Json
  | bool (b : Bool) : Json
  | num (n : Int) : Json
  | str (s : String) : Json
  | arr (items : List Json) : Json
  | obj (fields : List (String × Json)) : Json

mutual

/-- Boolean structural equality on `Json` (decidable equality is not derivable
for nested inductives, so it is spelled out). -/
def Json.beq : Json → Json → Bool
  | .null, .null => true
  | .bool a, .bool b => a == b
  | .num a, .num b => a == b
  | .str a, .str b => a == b
  | .arr xs, .arr ys => Json.beqList xs ys
  | .obj fs, .obj gs => Json.beqFields fs gs
  | _, _ => false

/-- Elementwise `Json.beq` on lists. -/
def Json.beqList : List Json → List Json → Bool
  | [], [] => true
  | x :: xs, y :: ys => Json.beq x y && Json.beqList xs ys
  | _, _ => false

/-- Elementwise `Json.beq` on key-value lists (keys compared by `==`). -/
def Json.beqFields : List (String × Json) → List (String × Json) → Bool
  | [], [] => true
  | p :: ps, q :: qs => p.1 == q.1 && Json.beq p.2 q.2 && Json.beqFields ps qs
  | _, _ => false

end

mutual

theorem Json.beq_iff : ∀ a b : Json, Json.beq a b = true ↔ a = b
  | .null, .null => by simp [Json.beq]
  | .bool a, .bool b => by simp [Json.beq]
  | .num a, .num b => by simp [Json.beq]
  | .str a, .str b => by simp [Json.beq]
  | .arr xs, .arr ys => by
      simpa [Json.beq] using Json.beqList_iff xs ys
  | .obj fs, .obj gs => by
      simpa [Json.beq] using Json.beqFields_iff fs gs
  | .null, .bool _ | .null, .num _ | .null, .str _ | .null, .arr _ | .null, .obj _
  | .bool _, .null | .bool _, .num _ | .bool _, .str _ | .bool _, .arr _ | .bool _, .obj _
  | .num _, .null | .num _, .bool _ | .num _, .str _ | .num _, .arr _ | .num _, .obj _
  | .str _, .null | .str _, .bool _ | .str _, .num _ | .str _, .arr _ | .str _, .obj _
  | .arr _, .null | .arr _, .bool _ | .arr _, .num _ | .arr _, .str _ | .arr _, .obj _
  | .obj _, .null | .obj _, .bool _ | .obj _, .num _ | .obj _, .str _ | .obj _, .arr _ => by
      simp [Json.beq]

theorem Json.beqList_iff : ∀ xs ys : List Json, Json.beqList xs ys = true ↔ xs = ys
  | [], [] => by simp [Json.beqList]
  | x :: xs, y :: ys => by
      simp [Json.beqList, Json.beq_iff x y, Json.beqList_iff xs ys]
  | [], _ :: _ => by simp [Json.beqList]
  | _ :: _, [] => by simp [Json.beqList]

theorem Json.beqFields_iff :
    ∀ ps qs : List (String × Json), Json.beqFields ps qs = true ↔ ps = qs
  | [], [] => by simp [Json.beqFields]
  | p :: ps, q :: qs => by
      have := Json.beq_iff p.2 q.2
      have := Json.beqFields_iff ps qs
      simp [Json.beqFields, *, Prod.ext_iff, and_assoc]
  | [], _ :: _ => by simp [Json.beqFields]
  | _ :: _, [] => by simp [Json.beqFields]

end

instance : DecidableEq Json := fun a b =>
  decidable_of_iff (Json.beq a b = true) (Json.beq_iff a b)

namespace Encoding

/-- The decimal digit character for `n < 10`. -/
def digitChar (n : Nat) : Char := Char.ofNat (48 + n)

/-- Little-endian decimal digits, with explicit fuel so that the kernel can
evaluate it (the fuel is always sufficient: a number `n` has at most `n + 1`
digits). -/
def natDecAux : Nat → Nat → List Char
  | 0, _ => []
  | fuel + 1, n =>
    if n < 10 then [digitChar n] else digitChar (n % 10) :: natDecAux fuel (n / 10)

/-- Little-endian decimal digits of a natural number. -/
def natDecRev (n : Nat) : List Char := natDecAux (n + 1) n

/-- Decimal representation of a natural number, most significant digit first. -/
def natDec (n : Nat) : List Char := (natDecRev n).reverse

/-- The characters `JSON.stringify` produces for an integer number. -/
def numChars (n : Int) : List Char :=
  if n < 0 then '-' :: natDec (-n).toNat else natDec n.toNat

/-- Lowercase hexadecimal digit character for `n < 16`. -/
def hexDigitChar (n : Nat) : Char :=
  if n < 10 then Char.ofNat (48 + n) else Char.ofNat (87 + n)

/-- The escape sequence `JSON.stringify` emits for one character of a string:
quote and backslash are backslash-escaped, the five short control escapes are
used where they exist, all other control characters become `\u00XX`, and
everything else is emitted verbatim. -/
def escChar (c : Char) : List Char :=
  if c = '"' then ['\\', '"']
  else if c = '\\' then ['\\', '\\']
  else if c = '\x08' then ['\\', 'b']
  else if c = '\t' then ['\\', 't']
  else if c = '\n' then ['\\', 'n']
  else if c = '\x0c' then ['\\', 'f']
  else if c = '\r' then ['\\', 'r']
  else if c.toNat < 32 then
    ['\\', 'u', '0', '0', hexDigitChar (c.toNat / 16), hexDigitChar (c.toNat % 16)]
  else [c]

/-- JSON string-body escaping, character by character. -/
def escape (cs : List Char) : List Char := cs.flatMap escChar

/-- A JSON string literal: opening quote, escaped body, closing quote. -/
def quoteChars (s : String) : List Char := '"' :: escape s.data ++ ['"']

/-- The `{` character (spelled numerically). -/
def lbrace : Char := Char.ofNat 123

/-- The `}` character (spelled numerically). -/
def rbrace : Char := Char.ofNat 125

mutual

/-- `JSON.stringify` on a structured value: no incidental whitespace, object
fields emitted in stored order. -/
def stringifyJ : Json → List Char
  | .null => "null".data
  | .bool true => "true".data
  | .bool false => "false".data
  | .num n => numChars n
  | .str s => quoteChars s
  | .arr xs => '[' :: arrBody xs
  | .obj fs => lbrace :: objBody fs

/-- The part of a stringified array after the opening bracket. -/
def arrBody : List Json → List Char
  | [] => [']']
  | [x] => stringifyJ x ++ [']']
  | x :: y :: xs => stringifyJ x ++ ',' :: arrBody (y :: xs)

/-- The part of a stringified object after the opening brace. -/
def objBody : List (String × Json) → List Char
  | [] => [rbrace]
  | [p] => quoteChars p.1 ++ ':' :: stringifyJ p.2 ++ [rbrace]
  | p :: q :: ps => quoteChars p.1 ++ ':' :: stringifyJ p.2 ++ ',' :: objBody (q :: ps)

end

end Encoding

/-- Lexicographic comparison of character sequences by code unit, the order
used by JavaScript `Array.prototype.sort()` on strings (all protocol keys are
ASCII, where code units and code points agree). -/
def strLtB : List Char → List Char → Bool
  | [], [] => false
  | [], _ :: _ => true
  | _ :: _, [] => false
  | c :: cs, d :: ds =>
    if c.toNat < d.toNat then true
    else if d.toNat < c.toNat then false
    else strLtB cs ds

/-- The key order used by `Object.keys(value).sort()`: field `p` comes no
later than field `q` when `q`'s key is not strictly smaller than `p`'s. -/
def keyLe (p q : String × Json) : Prop := strLtB q.1.data p.1.data = false

instance : DecidableRel keyLe := fun p q =>
  inferInstanceAs (Decidable (strLtB q.1.data p.1.data = false))

/-- `Object.keys(value).sort()` applied to a field list: sort the fields by
key. -/
def sortPairs (fs : List (String × Json)) : List (String × Json) :=
  fs.insertionSort keyLe

theorem sortPairs_perm (fs : List (String × Json)) : List.Perm (sortPairs fs) fs :=
  List.perm_insertionSort keyLe fs

mutual

/-- `sortKeys` from `serialize.ts`: arrays map recursively, objects are
rebuilt with their keys sorted and each value recursively sorted, scalars are
returned unchanged.  (The source sorts the keys and then recurses into each
value; since the sort only permutes fields, this is the same function —
`sortKeysJ_obj` below states the source's orientation.) -/
def sortKeysJ : Json → Json
  | .null => .null
  | .bool b => .bool b
  | .num n => .num n
  | .str s => .str s
  | .arr xs => .arr (sortKeysList xs)
  | .obj fs => .obj (sortPairs (sortKeysFields fs))

/-- `sortKeys` mapped over an array's items. -/
def sortKeysList : List Json → List Json
  | [] => []
  | x :: xs => sortKeysJ x :: sortKeysList xs

/-- `sortKeys` mapped over an object's field values. -/
def sortKeysFields : List (String × Json) → List (String × Json)
  | [] => []
  | p :: ps => (p.1, sortKeysJ p.2) :: sortKeysFields ps

end

theorem sortKeysList_eq_map (xs : List Json) : sortKeysList xs = xs.map sortKeysJ := by
  induction xs with
  | nil => rfl
  | cons x xs ih => simp [sortKeysList, ih]

theorem sortKeysFields_eq_map (fs : List (String × Json)) :
    sortKeysFields fs = fs.map fun p => (p.1, sortKeysJ p.2) := by
  induction fs with
  | nil => rfl
  | cons p ps ih => simp [sortKeysFields, ih]

theorem sortKeysJ_arr (xs : List Json) :
    sortKeysJ (.arr xs) = .arr (xs.map sortKeysJ) := by
  rw [sortKeysJ, sortKeysList_eq_map]

/-- The orientation used in `serialize.ts`: sort the fields by key first,
then recurse into each value. -/
theorem sortKeysJ_obj (fs : List (String × Json)) :
    sortKeysJ (.obj fs) = .obj ((sortPairs fs).map fun p => (p.1, sortKeysJ p.2)) := by
  rw [sortKeysJ, sortKeysFields_eq_map, sortPairs, sortPairs,
    ← List.map_insertionSort keyLe keyLe _ fs]
  intro a _ b _
  simp [keyLe]

/-- `canonicalize` from `serialize.ts`: UTF-8 bytes of
`JSON.stringify(sortKeys(object))`, modelled as the character sequence. -/
def canonicalize (object : Json) : List Char :=
  Encoding.stringifyJ (sortKeysJ object)

theorem strLtB_irrefl : ∀ a : List Char, strLtB a a = false
  | [] => rfl
  | c :: cs => by simp [strLtB, strLtB_irrefl cs]

theorem char_eq_of_toNat_eq {c d : Char} (h : c.toNat = d.toNat) : c = d := by
  have hv : c.val.toBitVec.toNat = d.val.toBitVec.toNat := h
  exact Char.eq_of_val_eq (UInt32.eq_of_toBitVec_eq (BitVec.eq_of_toNat_eq hv))

theorem strLtB_eq_of_not_lt :
    ∀ a b : List Char, strLtB a b = false → strLtB b a = false → a = b
  | [], [], _, _ => rfl
  | [], _ :: _, h1, _ => by simp [strLtB] at h1
  | _ :: _, [], _, h2 => by simp [strLtB] at h2
  | c :: cs, d :: ds, h1, h2 => by
    simp only [strLtB] at h1 h2
    by_cases hcd : c.toNat < d.toNat
    · rw [if_pos hcd] at h1
      exact absurd h1 (by simp)
    · by_cases hdc : d.toNat < c.toNat
      · rw [if_pos hdc] at h2
        exact absurd h2 (by simp)
      · rw [if_neg hcd, if_neg hdc] at h1
        rw [if_neg hdc, if_neg hcd] at h2
        have hc : c = d := char_eq_of_toNat_eq (by omega)
        rw [hc, strLtB_eq_of_not_lt cs ds h1 h2]

theorem strLtB_asymm :
    ∀ a b : List Char, strLtB a b = true → strLtB b a = false
  | [], [], h => by simp [strLtB] at h
  | [], _ :: _, _ => rfl
  | _ :: _, [], h => by simp [strLtB] at h
  | c :: cs, d :: ds, h => by
    simp only [strLtB] at h ⊢
    by_cases hcd : c.toNat < d.toNat
    · rw [if_neg (by omega), if_pos hcd]
    · by_cases hdc : d.toNat < c.toNat
      · rw [if_neg hcd, if_pos hdc] at h
        exact absurd h (by simp)
      · rw [if_neg hcd, if_neg hdc] at h
        rw [if_neg hdc, if_neg hcd]
        exact strLtB_asymm cs ds h

theorem strLtB_false_trans :
    ∀ a b c : List Char, strLtB b a = false → strLtB c b = false → strLtB c a = false
  | [], _, [], _, _ => rfl
  | [], _, _ :: _, _, _ => rfl
  | _ :: _, [], _, h1, _ => by simp [strLtB] at h1
  | _ :: _, _ :: _, [], _, h2 => by simp [strLtB] at h2
  | x :: xs, y :: ys, z :: zs, h1, h2 => by
    simp only [strLtB] at h1 h2 ⊢
    have hyx : ¬ y.toNat < x.toNat := by
      intro hc
      rw [if_pos hc] at h1
      exact absurd h1 (by simp)
    have hzy : ¬ z.toNat < y.toNat := by
      intro hc
      rw [if_pos hc] at h2
      exact absurd h2 (by simp)
    rw [if_neg hyx] at h1
    rw [if_neg hzy] at h2
    rw [if_neg (by omega)]
    by_cases hxz : x.toNat < z.toNat
    · rw [if_pos hxz]
    · rw [if_neg hxz]
      have hxy : ¬ x.toNat < y.toNat := by omega
      have hyz : ¬ y.toNat < z.toNat := by omega
      rw [if_neg hxy] at h1
      rw [if_neg hyz] at h2
      exact strLtB_false_trans xs ys zs h1 h2

/-- Strict version of the key order. -/
def keyLt (p q : String × Json) : Prop := strLtB p.1.data q.1.data = true

instance : IsTotal (String × Json) keyLe where
  total p q := by
    by_cases h : strLtB q.1.data p.1.data = false
    · exact Or.inl h
    · exact Or.inr (strLtB_asymm _ _ (by revert h; cases strLtB q.1.data p.1.data <;> simp))

instance : IsTrans (String × Json) keyLe where
  trans p q r h1 h2 := strLtB_false_trans p.1.data q.1.data r.1.data h1 h2

instance : IsAntisymm (String × Json) keyLt where
  antisymm p q h1 h2 := absurd (strLtB_asymm _ _ h1) (by rw [h2]; simp)

theorem sorted_keyLe_sortPairs (fs : List (String × Json)) :
    List.Sorted keyLe (sortPairs fs) :=
  List.sorted_insertionSort keyLe fs

/-- A key-sorted field list with no duplicate keys is strictly sorted. -/
theorem sorted_keyLt_of_sorted_nodup {fs : List (String × Json)}
    (hs : List.Sorted keyLe fs) (hn : (fs.map Prod.fst).Nodup) :
    List.Sorted keyLt fs := by
  have hn' : fs.Pairwise fun p q => p.1 ≠ q.1 := by
    rw [List.Nodup, List.pairwise_map] at hn
    exact hn
  refine (hs.and hn').imp ?_
  rintro p q ⟨hle, hne⟩
  by_cases h : strLtB p.1.data q.1.data = true
  · exact h
  · exfalso
    apply hne
    have h' : strLtB p.1.data q.1.data = false := by
      revert h; cases strLtB p.1.data q.1.data <;> simp
    have := strLtB_eq_of_not_lt _ _ hle h'
    calc p.1 = ⟨p.1.data⟩ := rfl
    _ = ⟨q.1.data⟩ := by rw [this]
    _ = q.1 := rfl

/-- Sorting two key-permuted field lists with duplicate-free keys gives the
same list: the heart of encoder determinism. -/
theorem sortPairs_eq_of_perm {fs gs : List (String × Json)}
    (h : List.Perm fs gs) (hn : (fs.map Prod.fst).Nodup) :
    sortPairs fs = sortPairs gs := by
  have hperm : List.Perm (sortPairs fs) (sortPairs gs) :=
    ((sortPairs_perm fs).trans h).trans (sortPairs_perm gs).symm
  have hnf : ((sortPairs fs).map Prod.fst).Nodup :=
    (((sortPairs_perm fs).map Prod.fst).nodup_iff).mpr hn
  have hng : ((sortPairs gs).map Prod.fst).Nodup :=
    ((hperm.map Prod.fst).nodup_iff).mp hnf
  exact List.eq_of_perm_of_sorted hperm
    (sorted_keyLt_of_sorted_nodup (sorted_keyLe_sortPairs fs) hnf)
    (sorted_keyLt_of_sorted_nodup (sorted_keyLe_sortPairs gs) hng)

mutual

/-- Structural equality of JavaScript values irrespective of object key
insertion order: scalars must agree, arrays must agree elementwise, and an
object's field list (with duplicate-free keys, as any JS object has) may be
an arbitrary permutation of a field list that agrees key-by-key with the
other object's, with structurally equal values. -/
inductive StructEq : Json → Json → Prop where
  | null : StructEq .null .null
  | bool (b : Bool) : StructEq (.bool b) (.bool b)
  | num (n : Int) : StructEq (.num n) (.num n)
  | str (s : String) : StructEq (.str s) (.str s)
  | arr {xs ys : List Json} : StructEqList xs ys → StructEq (.arr xs) (.arr ys)
  | obj {fs hs gs : List (String × Json)} :
      (fs.map Prod.fst).Nodup →
      List.Perm fs hs →
      StructEqFields hs gs →
      StructEq (.obj fs) (.obj gs)

/-- Elementwise structural equality of array items. -/
inductive StructEqList : List Json → List Json → Prop where
  | nil : StructEqList [] []
  | cons {x y : Json} {xs ys : List Json} :
      StructEq x y → StructEqList xs ys → StructEqList (x :: xs) (y :: ys)

/-- Fieldwise structural equality: same key, structurally equal value. -/
inductive StructEqFields : List (String × Json) → List (String × Json) → Prop where
  | nil : StructEqFields [] []
  | cons {p q : String × Json} {ps qs : List (String × Json)} :
      p.1 = q.1 → StructEq p.2 q.2 → StructEqFields ps qs →
      StructEqFields (p :: ps) (q :: qs)

end

mutual

theorem structEq_sortKeys : ∀ {a b : Json}, StructEq a b → sortKeysJ a = sortKeysJ b
  | _, _, .null => rfl
  | _, _, .bool _ => rfl
  | _, _, .num _ => rfl
  | _, _, .str _ => rfl
  | _, _, .arr h => by
    rw [sortKeysJ, sortKeysJ, structEqList_sortKeys h]
  | _, _, @StructEq.obj fs hs gs hn hp hf => by
    rw [sortKeysJ, sortKeysJ]
    congr 1
    have h1 : sortPairs (sortKeysFields fs) = sortPairs (sortKeysFields hs) := by
      apply sortPairs_eq_of_perm
      · rw [sortKeysFields_eq_map, sortKeysFields_eq_map]
        exact hp.map _
      · rw [sortKeysFields_eq_map, List.map_map]
        simpa [Function.comp] using hn
    rw [h1, structEqFields_sortKeys hf]

theorem structEqList_sortKeys :
    ∀ {xs ys : List Json}, StructEqList xs ys → sortKeysList xs = sortKeysList ys
  | _, _, .nil => rfl
  | _, _, .cons h hs => by
    rw [sortKeysList, sortKeysList, structEq_sortKeys h, structEqList_sortKeys hs]

theorem structEqFields_sortKeys :
    ∀ {ps qs : List (String × Json)}, StructEqFields ps qs →
      sortKeysFields ps = sortKeysFields qs
  | _, _, .nil => rfl
  | _, _, .cons hk hv hs => by
    rw [sortKeysFields, sortKeysFields, hk, structEq_sortKeys hv,
      structEqFields_sortKeys hs]

end

/-- C1: for every two structurally equal values, regardless of the order in
which their object keys were inserted at any nesting level, `canonicalize`
returns byte-identical output. -/
theorem c1_encode_deterministic {v1 v2 : Json} (h : StructEq v1 v2) :
    canonicalize v1 = canonicalize v2 :=
  congrArg Encoding.stringifyJ (structEq_sortKeys h)

/-- Witness for C1: a concrete pair of structurally equal objects whose keys
were inserted in opposite orders at both nesting levels. -/
theorem c1_encode_deterministic_witness :
    canonicalize (Json.obj [("b", .num 1), ("a", .obj [("y", .num 2), ("x", .str "s")])]) =
      canonicalize (Json.obj [("a", .obj [("x", .str "s"), ("y", .num 2)]), ("b", .num 1)]) :=
  c1_encode_deterministic
    (@StructEq.obj
      [("b", .num 1), ("a", .obj [("y", .num 2), ("x", .str "s")])]
      [("a", .obj [("y", .num 2), ("x", .str "s")]), ("b", .num 1)]
      [("a", .obj [("x", .str "s"), ("y", .num 2)]), ("b", .num 1)]
      (by decide)
      (List.Perm.swap _ _ [])
      (.cons rfl
        (@StructEq.obj
          [("y", .num 2), ("x", .str "s")]
          [("x", .str "s"), ("y", .num 2)]
          [("x", .str "s"), ("y", .num 2)]
          (by decide)
          (List.Perm.swap _ _ [])
          (.cons rfl (.str "s") (.cons rfl (.num 2) .nil)))
        (.cons rfl (.num 1) .nil)))

/-! ## Identity (`keys.ts`)

`keys.ts` delegates key generation, signing and verification to the external
`@noble/ed25519` library, whose internals are not part of this repository.
Following the spec's contract for the identity layer (sign/verify round-trip,
verification recomputing over exactly the presented bytes, no other signature
accepted), ed25519 is idealized as a deterministic symbolic signature scheme:
a secret key is a natural number, the matching public key is its decimal
address string, and a signature over a message is the public key paired with
the exact message bytes (length-prefixed so that the pairing is injective).
A signature verifies against a public key and a message exactly when it is
the one the matching secret key produces over exactly those bytes. -/

/-- The public key (protocol address string) matching a secret key. -/
def pkOf (secretKey : Nat) : String := ⟨Encoding.natDec secretKey⟩

/-- An ed25519 keypair as held by an agent (`AgentIdentity` in `keys.ts`). -/
structure AgentIdentity where
  publicKey : String
  secretKey : Nat

/-- The identity generated by `generateIdentity`: a keypair whose public key
matches its secret key. -/
def AgentIdentity.wellFormed (id : AgentIdentity) : Prop :=
  id.publicKey = pkOf id.secretKey

/-- The unique signature the holder of the secret key behind `pk` produces
over `msg`: an injective pairing of the public key and the message. -/
def mkSig (pk : String) (msg : List Char) : String :=
  ⟨Encoding.natDec pk.data.length ++ ':' :: (pk.data ++ msg)⟩

/-- `sign` from `keys.ts` (idealized). -/
def sign (message : List Char) (secretKey : Nat) : String :=
  mkSig (pkOf secretKey) message

/-- `verify` from `keys.ts` (idealized): never raises, returns a boolean. -/
def verify (signature : String) (message : List Char) (publicKey : String) : Bool :=
  signature == mkSig publicKey message

namespace Encoding

theorem toNat_digitChar {n : Nat} (h : n < 10) : (digitChar n).toNat = 48 + n := by
  interval_cases n <;> decide

/-- The value recovered from little-endian decimal digits. -/
def decValRev : List Char → Nat
  | [] => 0
  | c :: cs => (c.toNat - 48) + 10 * decValRev cs

theorem decValRev_natDecAux :
    ∀ fuel n : Nat, n < fuel → decValRev (natDecAux fuel n) = n
  | 0, _, h => absurd h (by omega)
  | fuel + 1, n, h => by
    rw [natDecAux]
    by_cases h10 : n < 10
    · rw [if_pos h10]
      simp [decValRev, toNat_digitChar h10]
    · rw [if_neg h10]
      have hd : n / 10 < fuel := by omega
      simp [decValRev, toNat_digitChar (Nat.mod_lt n (by omega)), decValRev_natDecAux fuel _ hd]
      omega

theorem decValRev_natDecRev (n : Nat) : decValRev (natDecRev n) = n :=
  decValRev_natDecAux (n + 1) n (by omega)

theorem natDec_inj {m n : Nat} (h : natDec m = natDec n) : m = n := by
  have hrev : natDecRev m = natDecRev n := by
    have := congrArg List.reverse h
    simpa [natDec] using this
  calc m = decValRev (natDecRev m) := (decValRev_natDecRev m).symm
  _ = decValRev (natDecRev n) := by rw [hrev]
  _ = n := decValRev_natDecRev n

theorem isDigit_natDecAux :
    ∀ fuel n : Nat, ∀ c ∈ natDecAux fuel n, 48 ≤ c.toNat ∧ c.toNat ≤ 57
  | 0, _, c, hc => absurd hc (by simp [natDecAux])
  | fuel + 1, n, c, hc => by
    rw [natDecAux] at hc
    by_cases h10 : n < 10
    · rw [if_pos h10] at hc
      simp only [List.mem_singleton] at hc
      subst hc
      rw [toNat_digitChar h10]
      omega
    · rw [if_neg h10] at hc
      simp only [List.mem_cons] at hc
      rcases hc with hc | hc
      · subst hc
        rw [toNat_digitChar (Nat.mod_lt n (by omega))]
        omega
      · exact isDigit_natDecAux fuel _ c hc

theorem ne_colon_of_mem_natDec {n : Nat} {c : Char} (hc : c ∈ natDec n) : c ≠ ':' := by
  have := isDigit_natDecAux (n + 1) n c (by simpa [natDec, natDecRev] using hc)
  intro hcol
  subst hcol
  simp at this

end Encoding

theorem split_at_colon :
    ∀ a1 a2 t1 t2 : List Char, (∀ c ∈ a1, c ≠ ':') → (∀ c ∈ a2, c ≠ ':') →
      a1 ++ ':' :: t1 = a2 ++ ':' :: t2 → a1 = a2 ∧ t1 = t2
  | [], [], t1, t2, _, _, h => ⟨rfl, by simpa using h⟩
  | [], c :: cs, t1, t2, _, ha2, h => by
    simp only [List.nil_append, List.cons_append, List.cons.injEq] at h
    exact absurd h.1.symm (ha2 c (by simp))
  | c :: cs, [], t1, t2, ha1, _, h => by
    simp only [List.nil_append, List.cons_append, List.cons.injEq] at h
    exact absurd h.1 (ha1 c (by simp))
  | c :: cs, d :: ds, t1, t2, ha1, ha2, h => by
    simp only [List.cons_append, List.cons.injEq] at h
    obtain ⟨hcs, hts⟩ := split_at_colon cs ds t1 t2
      (fun x hx => ha1 x (by simp [hx])) (fun x hx => ha2 x (by simp [hx])) h.2
    exact ⟨by rw [h.1, hcs], hts⟩

theorem mkSig_inj {pk1 pk2 : String} {m1 m2 : List Char}
    (h : mkSig pk1 m1 = mkSig pk2 m2) : pk1 = pk2 ∧ m1 = m2 := by
  have hd : Encoding.natDec pk1.data.length ++ ':' :: (pk1.data ++ m1) =
      Encoding.natDec pk2.data.length ++ ':' :: (pk2.data ++ m2) :=
    congrArg String.data h
  obtain ⟨hlen, hrest⟩ := split_at_colon _ _ _ _
    (fun c hc => Encoding.ne_colon_of_mem_natDec hc)
    (fun c hc => Encoding.ne_colon_of_mem_natDec hc) hd
  have hlen' : pk1.data.length = pk2.data.length := Encoding.natDec_inj hlen
  obtain ⟨hpk, hm⟩ := List.append_inj hrest hlen'
  exact ⟨String.ext hpk, hm⟩

/-- Round trip: a signature produced by `sign` verifies against the matching
public key over the same message. -/
theorem verify_sign (message : List Char) (secretKey : Nat) :
    verify (sign message secretKey) message (pkOf secretKey) = true := by
  simp [verify, sign]

/-- Strong tamper rejection: a signature verifies only when it is exactly the
signature of the presented message under the presenting key. -/
theorem verify_eq_true_iff {sig : String} {msg : List Char} {pk : String} :
    verify sig msg pk = true ↔ sig = mkSig pk msg := by
  simp [verify]

/-! ## Injectivity of the scalar encoders

Changing a string or number changes its JSON text: needed to show that field
mutation breaks the recomputed signing input. -/

namespace Encoding

theorem toNat_hexDigitChar {n : Nat} (h : n < 16) :
    (hexDigitChar n).toNat = if n < 10 then 48 + n else 87 + n := by
  interval_cases n <;> decide

theorem hexDigitChar_inj {m n : Nat} (hm : m < 16) (hn : n < 16)
    (h : hexDigitChar m = hexDigitChar n) : m = n := by
  have := congrArg Char.toNat h
  rw [toNat_hexDigitChar hm, toNat_hexDigitChar hn] at this
  split_ifs at this <;> omega

theorem escChar_ne_nil (c : Char) : escChar c ≠ [] := by
  unfold escChar
  split_ifs <;> simp

/-- The char a short backslash escape decodes to. -/
def decodeShort (e : Char) : Option Char :=
  if e = '"' then some '"'
  else if e = '\\' then some '\\'
  else if e = 'b' then some '\x08'
  else if e = 't' then some '\t'
  else if e = 'n' then some '\n'
  else if e = 'f' then some '\x0c'
  else if e = 'r' then some '\r'
  else none

/-- Every escape sequence has one of three shapes, each decodable back to its
source character. -/
theorem escChar_cases (c : Char) :
    (escChar c = [c] ∧ c ≠ '\\') ∨
    (∃ e, escChar c = ['\\', e] ∧ e ≠ 'u' ∧ decodeShort e = some c) ∨
    (c.toNat < 32 ∧
      escChar c = ['\\', 'u', '0', '0',
        hexDigitChar (c.toNat / 16), hexDigitChar (c.toNat % 16)]) := by
  unfold escChar
  split_ifs with h1 h2 h3 h4 h5 h6 h7 h8
  · exact Or.inr (Or.inl ⟨'"', by simp [h1, decodeShort]⟩)
  · exact Or.inr (Or.inl ⟨'\\', by simp [h2, decodeShort]⟩)
  · exact Or.inr (Or.inl ⟨'b', by simp [h3, decodeShort]⟩)
  · exact Or.inr (Or.inl ⟨'t', by simp [h4, decodeShort]⟩)
  · exact Or.inr (Or.inl ⟨'n', by simp [h5, decodeShort]⟩)
  · exact Or.inr (Or.inl ⟨'f', by simp [h6, decodeShort]⟩)
  · exact Or.inr (Or.inl ⟨'r', by simp [h7, decodeShort]⟩)
  · exact Or.inr (Or.inr ⟨h8, rfl⟩)
  · exact Or.inl ⟨rfl, h2⟩

theorem escChar_append_inj (a b : Char) (x y : List Char)
    (h : escChar a ++ x = escChar b ++ y) : a = b ∧ x = y := by
  rcases escChar_cases a with ⟨ea, hna⟩ | ⟨e1, ea, hua, hda⟩ | ⟨hla, ea⟩ <;>
    rcases escChar_cases b with ⟨eb, hnb⟩ | ⟨e2, eb, hub, hdb⟩ | ⟨hlb, eb⟩ <;>
      rw [ea, eb] at h <;> simp only [List.cons_append, List.nil_append,
        List.cons.injEq] at h
  · exact ⟨h.1, h.2⟩
  · exact absurd h.1 hna
  · exact absurd h.1 hna
  · exact absurd h.1.symm hnb
  · obtain ⟨-, he, hxy⟩ := h
    rw [he] at hda
    rw [hdb] at hda
    exact ⟨(Option.some.inj hda).symm, hxy⟩
  · obtain ⟨-, he, -⟩ := h
    exact absurd he hua
  · exact absurd h.1.symm hnb
  · obtain ⟨-, he, -⟩ := h
    exact absurd he.symm hub
  · obtain ⟨-, -, -, -, e1, e2, hxy⟩ := h
    have ha16 : a.toNat / 16 < 16 := by omega
    have hb16 : b.toNat / 16 < 16 := by omega
    have ham : a.toNat % 16 < 16 := Nat.mod_lt _ (by omega)
    have hbm : b.toNat % 16 < 16 := Nat.mod_lt _ (by omega)
    have hdiv := hexDigitChar_inj ha16 hb16 e1
    have hmod := hexDigitChar_inj ham hbm e2
    exact ⟨char_eq_of_toNat_eq (by omega), hxy⟩

theorem escape_inj : ∀ s1 s2 : List Char, escape s1 = escape s2 → s1 = s2
  | [], [], _ => rfl
  | [], c :: cs, h => by
    rw [escape, escape] at h
    simp only [List.flatMap_nil, List.flatMap_cons] at h
    exact absurd h.symm (by simp [escChar_ne_nil c])
  | c :: cs, [], h => by
    rw [escape, escape] at h
    simp only [List.flatMap_nil, List.flatMap_cons] at h
    exact absurd h (by simp [escChar_ne_nil c])
  | c :: cs, d :: ds, h => by
    rw [escape, escape] at h
    simp only [List.flatMap_cons] at h
    obtain ⟨hc, ht⟩ := escChar_append_inj c d _ _ h
    rw [hc, escape_inj cs ds ht]

theorem quoteChars_inj {s1 s2 : String} (h : quoteChars s1 = quoteChars s2) : s1 = s2 := by
  rw [quoteChars, quoteChars] at h
  have h2 := List.append_cancel_right h
  simp only [List.cons.injEq, true_and] at h2
  exact String.ext (escape_inj _ _ h2)

theorem natDecRev_ne_nil (n : Nat) : natDecRev n ≠ [] := by
  rw [natDecRev, natDecAux]
  split_ifs <;> simp

theorem natDec_ne_nil (n : Nat) : natDec n ≠ [] := by
  rw [natDec]
  simpa using natDecRev_ne_nil n

theorem dash_not_mem_natDec (n : Nat) : '-' ∉ natDec n := by
  intro hm
  have := isDigit_natDecAux (n + 1) n '-' (by simpa [natDec, natDecRev] using hm)
  simp at this

theorem numChars_inj {m n : Int} (h : numChars m = numChars n) : m = n := by
  rw [numChars, numChars] at h
  split_ifs at h with hm hn hn
  · simp only [List.cons.injEq, true_and] at h
    have := natDec_inj h
    omega
  · exact absurd (h ▸ List.mem_cons_self '-' _) (dash_not_mem_natDec n.toNat)
  · exact absurd (h.symm ▸ List.mem_cons_self '-' _) (dash_not_mem_natDec m.toNat)
  · have := natDec_inj h
    omega

end Encoding

/-! ## Envelope protocol (`types.ts`, `envelope.ts`)

`crypto.randomUUID()` and `Date.now()` are effects of the host environment;
they enter the model as explicit `taskId` and `timestamp` arguments. -/

/-- `TaskEnvelope` from `types.ts`. -/
structure TaskEnvelope where
  taskId : String
  «from» : String
  «to» : String
  tool : String
  payload : Json
  timestamp : Int
  signature : String
  deriving DecidableEq

/-- `TaskResponse` from `types.ts`. -/
structure TaskResponse where
  taskId : String
  «from» : String
  result : Json
  timestamp : Int
  signature : String
  deriving DecidableEq

/-- The `unsigned` object built in `createTaskEnvelope` (and recovered by
`verifyTaskEnvelope` via `const { signature, ...unsigned } = envelope`),
fields in source insertion order. -/
def taskEnvelopeUnsignedJson (taskId fromKey toKey tool : String) (payload : Json)
    (timestamp : Int) : Json :=
  .obj [("taskId", .str taskId), ("from", .str fromKey), ("to", .str toKey),
    ("tool", .str tool), ("payload", payload), ("timestamp", .num timestamp)]

/-- `createTaskEnvelope` from `envelope.ts`. -/
def createTaskEnvelope (identity : AgentIdentity) (toKey tool : String) (payload : Json)
    (taskId : String) (timestamp : Int) : TaskEnvelope :=
  let message := canonicalize
    (taskEnvelopeUnsignedJson taskId identity.publicKey toKey tool payload timestamp)
  { taskId := taskId, «from» := identity.publicKey, «to» := toKey, tool := tool,
    payload := payload, timestamp := timestamp,
    signature := sign message identity.secretKey }

/-- `verifyTaskEnvelope` from `envelope.ts`: recompute the canonical encoding
of all fields except `signature` from the current field values and verify the
signature against `from`. -/
def verifyTaskEnvelope (envelope : TaskEnvelope) : Bool :=
  verify envelope.signature
    (canonicalize (taskEnvelopeUnsignedJson envelope.taskId envelope.«from» envelope.«to»
      envelope.tool envelope.payload envelope.timestamp))
    envelope.«from»

/-- The `unsigned` object built in `createTaskResponse`, fields in source
insertion order. -/
def taskResponseUnsignedJson (taskId fromKey : String) (result : Json)
    (timestamp : Int) : Json :=
  .obj [("taskId", .str taskId), ("from", .str fromKey), ("result", result),
    ("timestamp", .num timestamp)]

/-- `createTaskResponse` from `envelope.ts`. -/
def createTaskResponse (identity : AgentIdentity) (taskId : String) (result : Json)
    (timestamp : Int) : TaskResponse :=
  let message := canonicalize
    (taskResponseUnsignedJson taskId identity.publicKey result timestamp)
  { taskId := taskId, «from» := identity.publicKey, result := result,
    timestamp := timestamp, signature := sign message identity.secretKey }

/-- `verifyTaskResponse` from `envelope.ts`. -/
def verifyTaskResponse (response : TaskResponse) : Bool :=
  verify response.signature
    (canonicalize (taskResponseUnsignedJson response.taskId response.«from»
      response.result response.timestamp))
    response.«from»

/-- The canonical signing input of a task envelope, with keys sorted. -/
theorem sortKeys_envUnsigned (tid f toK tool : String) (p : Json) (ts : Int) :
    sortKeysJ (taskEnvelopeUnsignedJson tid f toK tool p ts) =
      Json.obj [("from", .str f), ("payload", sortKeysJ p), ("taskId", .str tid),
        ("timestamp", .num ts), ("to", .str toK), ("tool", .str tool)] := rfl

/-- The canonical signing input of a task response, with keys sorted. -/
theorem sortKeys_respUnsigned (tid f : String) (res : Json) (ts : Int) :
    sortKeysJ (taskResponseUnsignedJson tid f res ts) =
      Json.obj [("from", .str f), ("result", sortKeysJ res), ("taskId", .str tid),
        ("timestamp", .num ts)] := rfl

/-- C2: for a task envelope or task result produced by its create function,
mutating any signed field afterwards (for the structured `payload`/`result`
fields: to a value with a different canonical encoding, i.e. a structurally
different value) makes the corresponding verify function return false, and
replacing only the signature field with any other signature value also fails
verification. -/
theorem c2_tamper_detection (sk : Nat) (toKey tool taskId : String) (payload : Json)
    (ts : Int) (rTaskId : String) (rResult : Json) (rTs : Int)
    (e : TaskEnvelope) (r : TaskResponse)
    (he : e = createTaskEnvelope ⟨pkOf sk, sk⟩ toKey tool payload taskId ts)
    (hr : r = createTaskResponse ⟨pkOf sk, sk⟩ rTaskId rResult rTs) :
    (∀ v, v ≠ taskId → verifyTaskEnvelope { e with taskId := v } = false) ∧
    (∀ v, v ≠ pkOf sk → verifyTaskEnvelope { e with «from» := v } = false) ∧
    (∀ v, v ≠ toKey → verifyTaskEnvelope { e with «to» := v } = false) ∧
    (∀ v, v ≠ tool → verifyTaskEnvelope { e with tool := v } = false) ∧
    (∀ v, canonicalize v ≠ canonicalize payload →
      verifyTaskEnvelope { e with payload := v } = false) ∧
    (∀ v, v ≠ ts → verifyTaskEnvelope { e with timestamp := v } = false) ∧
    (∀ s, s ≠ e.signature → verifyTaskEnvelope { e with signature := s } = false) ∧
    (∀ v, v ≠ rTaskId → verifyTaskResponse { r with taskId := v } = false) ∧
    (∀ v, v ≠ pkOf sk → verifyTaskResponse { r with «from» := v } = false) ∧
    (∀ v, canonicalize v ≠ canonicalize rResult →
      verifyTaskResponse { r with result := v } = false) ∧
    (∀ v, v ≠ rTs → verifyTaskResponse { r with timestamp := v } = false) ∧
    (∀ s, s ≠ r.signature → verifyTaskResponse { r with signature := s } = false) := by
  subst he
  subst hr
  refine ⟨?_, ?_, ?_, ?_, ?_, ?_, ?_, ?_, ?_, ?_, ?_, ?_⟩
  · intro v hv
    rw [Bool.eq_false_iff]
    intro hver
    simp only [verifyTaskEnvelope, createTaskEnvelope] at hver
    rw [verify_eq_true_iff] at hver
    obtain ⟨-, hmsg⟩ := mkSig_inj hver
    rw [canonicalize, canonicalize, sortKeys_envUnsigned, sortKeys_envUnsigned] at hmsg
    simp only [Encoding.stringifyJ, Encoding.objBody, List.cons_append, List.cons.injEq,
      List.append_cancel_left_eq, List.append_cancel_right_eq, true_and, and_true] at hmsg
    exact hv (Encoding.quoteChars_inj hmsg).symm
  · intro v hv
    rw [Bool.eq_false_iff]
    intro hver
    simp only [verifyTaskEnvelope, createTaskEnvelope] at hver
    rw [verify_eq_true_iff] at hver
    obtain ⟨hpk, -⟩ := mkSig_inj hver
    exact hv hpk.symm
  · intro v hv
    rw [Bool.eq_false_iff]
    intro hver
    simp only [verifyTaskEnvelope, createTaskEnvelope] at hver
    rw [verify_eq_true_iff] at hver
    obtain ⟨-, hmsg⟩ := mkSig_inj hver
    rw [canonicalize, canonicalize, sortKeys_envUnsigned, sortKeys_envUnsigned] at hmsg
    simp only [Encoding.stringifyJ, Encoding.objBody, List.cons_append, List.cons.injEq,
      List.append_cancel_left_eq, List.append_cancel_right_eq, true_and, and_true] at hmsg
    exact hv (Encoding.quoteChars_inj hmsg).symm
  · intro v hv
    rw [Bool.eq_false_iff]
    intro hver
    simp only [verifyTaskEnvelope, createTaskEnvelope] at hver
    rw [verify_eq_true_iff] at hver
    obtain ⟨-, hmsg⟩ := mkSig_inj hver
    rw [canonicalize, canonicalize, sortKeys_envUnsigned, sortKeys_envUnsigned] at hmsg
    simp only [Encoding.stringifyJ, Encoding.objBody, List.cons_append, List.cons.injEq,
      List.append_cancel_left_eq, List.append_cancel_right_eq, true_and, and_true] at hmsg
    exact hv (Encoding.quoteChars_inj hmsg).symm
  · intro v hv
    rw [Bool.eq_false_iff]
    intro hver
    simp only [verifyTaskEnvelope, createTaskEnvelope] at hver
    rw [verify_eq_true_iff] at hver
    obtain ⟨-, hmsg⟩ := mkSig_inj hver
    rw [canonicalize, canonicalize, sortKeys_envUnsigned, sortKeys_envUnsigned] at hmsg
    simp only [Encoding.stringifyJ, Encoding.objBody, List.cons_append, List.cons.injEq,
      List.append_cancel_left_eq, List.append_cancel_right_eq, true_and, and_true] at hmsg
    exact hv hmsg.symm
  · intro v hv
    rw [Bool.eq_false_iff]
    intro hver
    simp only [verifyTaskEnvelope, createTaskEnvelope] at hver
    rw [verify_eq_true_iff] at hver
    obtain ⟨-, hmsg⟩ := mkSig_inj hver
    rw [canonicalize, canonicalize, sortKeys_envUnsigned, sortKeys_envUnsigned] at hmsg
    simp only [Encoding.stringifyJ, Encoding.objBody, List.cons_append, List.cons.injEq,
      List.append_cancel_left_eq, List.append_cancel_right_eq, true_and, and_true] at hmsg
    exact hv (Encoding.numChars_inj hmsg).symm
  · intro s hs
    rw [Bool.eq_false_iff]
    intro hver
    simp only [verifyTaskEnvelope, createTaskEnvelope] at hver
    rw [verify_eq_true_iff] at hver
    exact hs hver
  · intro v hv
    rw [Bool.eq_false_iff]
    intro hver
    simp only [verifyTaskResponse, createTaskResponse] at hver
    rw [verify_eq_true_iff] at hver
    obtain ⟨-, hmsg⟩ := mkSig_inj hver
    rw [canonicalize, canonicalize, sortKeys_respUnsigned, sortKeys_respUnsigned] at hmsg
    simp only [Encoding.stringifyJ, Encoding.objBody, List.cons_append, List.cons.injEq,
      List.append_cancel_left_eq, List.append_cancel_right_eq, true_and, and_true] at hmsg
    exact hv (Encoding.quoteChars_inj hmsg).symm
  · intro v hv
    rw [Bool.eq_false_iff]
    intro hver
    simp only [verifyTaskResponse, createTaskResponse] at hver
    rw [verify_eq_true_iff] at hver
    obtain ⟨hpk, -⟩ := mkSig_inj hver
    exact hv hpk.symm
  · intro v hv
    rw [Bool.eq_false_iff]
    intro hver
    simp only [verifyTaskResponse, createTaskResponse] at hver
    rw [verify_eq_true_iff] at hver
    obtain ⟨-, hmsg⟩ := mkSig_inj hver
    rw [canonicalize, canonicalize, sortKeys_respUnsigned, sortKeys_respUnsigned] at hmsg
    simp only [Encoding.stringifyJ, Encoding.objBody, List.cons_append, List.cons.injEq,
      List.append_cancel_left_eq, List.append_cancel_right_eq, true_and, and_true] at hmsg
    exact hv hmsg.symm
  · intro v hv
    rw [Bool.eq_false_iff]
    intro hver
    simp only [verifyTaskResponse, createTaskResponse] at hver
    rw [verify_eq_true_iff] at hver
    obtain ⟨-, hmsg⟩ := mkSig_inj hver
    rw [canonicalize, canonicalize, sortKeys_respUnsigned, sortKeys_respUnsigned] at hmsg
    simp only [Encoding.stringifyJ, Encoding.objBody, List.cons_append, List.cons.injEq,
      List.append_cancel_left_eq, List.append_cancel_right_eq, true_and, and_true] at hmsg
    exact hv (Encoding.numChars_inj hmsg).symm
  · intro s hs
    rw [Bool.eq_false_iff]
    intro hver
    simp only [verifyTaskResponse, createTaskResponse] at hver
    rw [verify_eq_true_iff] at hver
    exact hs hver

/-- Witness for C2: tampering with a concrete envelope's payload after
signing, and swapping a concrete response's signature for a different
valid-looking one, both fail verification. -/
theorem c2_tamper_detection_witness :
    verifyTaskEnvelope
      { createTaskEnvelope ⟨pkOf 5, 5⟩ (pkOf 6) "echo"
          (.obj [("message", .str "hello")]) "task-1" 1000 with
        payload := Json.obj [("message", .str "tampered")] } = false ∧
    verifyTaskResponse
      { createTaskResponse ⟨pkOf 5, 5⟩ "task-1" (.obj [("echo", .str "hello")]) 1001 with
        signature := mkSig (pkOf 9) [] } = false := by
  constructor
  · exact (c2_tamper_detection 5 (pkOf 6) "echo" "task-1" (.obj [("message", .str "hello")])
      1000 "task-1" (.obj [("echo", .str "hello")]) 1001 _ _ rfl rfl).2.2.2.2.1
      (Json.obj [("message", .str "tampered")]) (by decide)
  · exact (c2_tamper_detection 5 (pkOf 6) "echo" "task-1" (.obj [("message", .str "hello")])
      1000 "task-1" (.obj [("echo", .str "hello")]) 1001 _ _ rfl rfl).2.2.2.2.2.2.2.2.2.2.2
      (mkSig (pkOf 9) []) (by decide)

/-! ## Delegation (`delegation.ts`)

`Date.now()` enters the model as an explicit `now` argument. -/

/-- `DelegationCert` from `delegation.ts`. -/
structure DelegationCert where
  owner : String
  agent : String
  scope : List String
  issuedAt : Int
  expiresAt : Int
  signature : String
  deriving DecidableEq

/-- The `unsigned` object built in `createDelegationCert` (and recovered by
`verifyDelegationCert`), fields in source insertion order. -/
def delegationUnsignedJson (owner agent : String) (scope : List String)
    (issuedAt expiresAt : Int) : Json :=
  .obj [("owner", .str owner), ("agent", .str agent),
    ("scope", .arr (scope.map .str)), ("issuedAt", .num issuedAt),
    ("expiresAt", .num expiresAt)]

/-- `createDelegationCert` from `delegation.ts`. -/
def createDelegationCert (ownerIdentity : AgentIdentity) (agentPublicKey : String)
    (scope : List String) (ttlMs : Int) (now : Int) : DelegationCert :=
  let message := canonicalize
    (delegationUnsignedJson ownerIdentity.publicKey agentPublicKey scope now (now + ttlMs))
  { owner := ownerIdentity.publicKey, agent := agentPublicKey, scope := scope,
    issuedAt := now, expiresAt := now + ttlMs,
    signature := sign message ownerIdentity.secretKey }

/-- `verifyDelegationCert` from `delegation.ts`: expired certificates fail
outright, otherwise the signature is verified against `owner` over the
canonical encoding of all fields except `signature`. -/
def verifyDelegationCert (now : Int) (cert : DelegationCert) : Bool :=
  if cert.expiresAt ≤ now then false
  else
    verify cert.signature
      (canonicalize (delegationUnsignedJson cert.owner cert.agent cert.scope
        cert.issuedAt cert.expiresAt))
      cert.owner

/-- `isFleetSibling` from `delegation.ts`. -/
def isFleetSibling (now : Int) (certA certB : DelegationCert) : Bool :=
  verifyDelegationCert now certA && verifyDelegationCert now certB &&
    (certA.owner == certB.owner)

/-- C6: an expired certificate (`expiresAt <= now`) never verifies, whatever
its signature; an unexpired one verifies exactly when its signature checks
against `owner` over the canonical encoding of all fields except
`signature`. -/
theorem c6_verifyCertificate_expiry (now : Int) (cert : DelegationCert) :
    (cert.expiresAt ≤ now → verifyDelegationCert now cert = false) ∧
    (¬ cert.expiresAt ≤ now → verifyDelegationCert now cert =
      verify cert.signature
        (canonicalize (delegationUnsignedJson cert.owner cert.agent cert.scope
          cert.issuedAt cert.expiresAt))
        cert.owner) := by
  constructor
  · intro h
    simp [verifyDelegationCert, if_pos h]
  · intro h
    simp [verifyDelegationCert, if_neg h]

/-- Witness for C6: a certificate issued at 1000 with a 100 ms TTL fails at
1100 even though its signature is genuine, and at 1050 its verdict is exactly
the signature check (true here: the signature is genuine). -/
theorem c6_verifyCertificate_expiry_witness :
    verifyDelegationCert 1100
      (createDelegationCert ⟨pkOf 7, 7⟩ (pkOf 4) ["echo"] 100 1000) = false ∧
    verifyDelegationCert 1050
      (createDelegationCert ⟨pkOf 7, 7⟩ (pkOf 4) ["echo"] 100 1000) = true := by
  constructor
  · exact (c6_verifyCertificate_expiry 1100
      (createDelegationCert ⟨pkOf 7, 7⟩ (pkOf 4) ["echo"] 100 1000)).1 (by decide)
  · rw [(c6_verifyCertificate_expiry 1050
      (createDelegationCert ⟨pkOf 7, 7⟩ (pkOf 4) ["echo"] 100 1000)).2 (by decide)]
    exact verify_sign _ 7

/-- C7: `isFleetSibling` is true exactly when both certificates independently
verify and share the same owner, and it is symmetric in its two certificate
arguments. -/
theorem c7_isFleetSibling_iff_and_symm (now : Int) (certA certB : DelegationCert) :
    (isFleetSibling now certA certB = true ↔
      verifyDelegationCert now certA = true ∧ verifyDelegationCert now certB = true ∧
        certA.owner = certB.owner) ∧
    isFleetSibling now certA certB = isFleetSibling now certB certA := by
  constructor
  · simp [isFleetSibling, and_assoc]
  · simp only [isFleetSibling]
    cases verifyDelegationCert now certA <;> cases verifyDelegationCert now certB <;>
      simp [BEq.comm]

/-! ## Capability registry (`tools.ts`) and payload validation
(`standard-tools.ts`) -/

/-- The shape `validatePayload` reads out of a tool's `parameters` record:
an optional `type` name per property. -/
structure PropSchema where
  type : Option String

/-- An optional `required` list and optional `properties` record. -/
structure ParamsSchema where
  required : Option (List String)
  properties : Option (List (String × PropSchema))

/-- `Tool` from `types.ts`: name, description, optional parameters schema. -/
structure Tool where
  name : String
  description : String
  parameters : Option ParamsSchema

/-- `LLM_MESSAGE_TOOL_NAME` from `standard-tools.ts`. -/
def LLM_MESSAGE_TOOL_NAME : String := "quokkamesh/llm-message"

/-- `LLM_MESSAGE_TOOL` from `standard-tools.ts`. -/
def LLM_MESSAGE_TOOL : Tool :=
  { name := LLM_MESSAGE_TOOL_NAME,
    description :=
      "Free-form text message for LLM agents. Use this to send arbitrary text to another agent.",
    parameters := some
      { required := some ["text"],
        properties := some [("text", { type := some "string" })] } }

/-- The result record of `validatePayload`. -/
inductive Validation where
  | valid : Validation
  | invalid (error : String) : Validation
  deriving DecidableEq

/-- `typeof val` in JavaScript, on JSON-representable values (`typeof null`
and `typeof []` are both `"object"`). -/
def jsTypeof : Json → String
  | .null => "object"
  | .bool _ => "boolean"
  | .num _ => "number"
  | .str _ => "string"
  | .arr _ => "object"
  | .obj _ => "object"

/-- `Array.isArray(val) ? 'array' : typeof val` from `validatePayload`. -/
def jsTypeName : Json → String
  | .arr _ => "array"
  | v => jsTypeof v

/-- `payload === null || typeof payload !== 'object' || Array.isArray(payload)`:
true exactly when the payload is not a plain object. -/
def isNonObjectPayload : Json → Bool
  | .obj _ => false
  | _ => true

/-- The `for (const key of params.required)` loop body of `validatePayload`. -/
def checkRequired (props : Option (List (String × PropSchema)))
    (fields : List (String × Json)) : List String → Validation
  | [] => .valid
  | key :: rest =>
    match List.lookup key fields with
    | none => .invalid ("Missing required field: " ++ key)
    | some val =>
      match (props.bind (List.lookup key)).bind PropSchema.type with
      | none => checkRequired props fields rest
      | some expected =>
        let actual := jsTypeName val
        if expected = "integer" ∧ jsTypeof val ≠ "number" then
          .invalid ("Field " ++ key ++ " expected type integer but got " ++ actual)
        else if expected ≠ "array" ∧ expected ≠ "object" ∧ actual ≠ expected then
          .invalid ("Field " ++ key ++ " expected type " ++ expected ++ " but got " ++ actual)
        else if (expected = "array" ∨ expected = "object") ∧ actual ≠ expected then
          .invalid ("Field " ++ key ++ " expected type " ++ expected ++ " but got " ++ actual)
        else checkRequired props fields rest

/-- `validatePayload` from `standard-tools.ts`. -/
def validatePayload (tool : Tool) (payload : Json) : Validation :=
  if tool.name = LLM_MESSAGE_TOOL_NAME then
    match payload with
    | .obj fields =>
      match List.lookup "text" fields with
      | some (.str _) => .valid
      | _ => .invalid "Payload must have a string \"text\" field"
    | _ => .invalid "Payload must be an object with a text field"
  else if isNonObjectPayload payload then .invalid "Payload must be an object"
  else
    match payload with
    | .obj fields =>
      match tool.parameters with
      | none => .valid
      | some params =>
        match params.required with
        | none => .valid
        | some req => checkRequired params.properties fields req
    | _ => .valid

/-- What a task handler invocation does: return a result value, or throw
(an `Error` carrying a message, or any other value). -/
inductive HandlerOutcome where
  | ok (result : Json) : HandlerOutcome
  | thrown (errorMessage : Option String) : HandlerOutcome

/-- `TaskHandler` from `tools.ts`, as a pure function from the payload to the
invocation's outcome. -/
def TaskHandler := Json → HandlerOutcome

/-- One entry of the `ToolRegistry` map. -/
structure ToolEntry where
  tool : Tool
  handler : TaskHandler

/-- `ToolRegistry` from `tools.ts`: a name-keyed map, modelled as an
association list with unique keys. -/
def ToolRegistry := List (String × ToolEntry)

/-- JS `Map.set`: replace the value under an existing key in place, else
append. -/
def mapSet {α : Type} : List (String × α) → String → α → List (String × α)
  | [], k, v => [(k, v)]
  | (k', v') :: rest, k, v =>
    if k' = k then (k, v) :: rest else (k', v') :: mapSet rest k v

/-- JS `Map.delete`: remove the entry under a key, if present. -/
def mapDelete {α : Type} : List (String × α) → String → List (String × α)
  | [], _ => []
  | (k', v) :: rest, k => if k' = k then rest else (k', v) :: mapDelete rest k

/-- `ToolRegistry.register`: last write wins. -/
def registerTool (reg : ToolRegistry) (tool : Tool) (handler : TaskHandler) : ToolRegistry :=
  mapSet reg tool.name ⟨tool, handler⟩

/-- `ToolRegistry.getHandler`. -/
def getHandler (reg : ToolRegistry) (toolName : String) : Option TaskHandler :=
  (List.lookup toolName reg).map ToolEntry.handler

/-- `ToolRegistry.getTool`. -/
def getTool (reg : ToolRegistry) (toolName : String) : Option Tool :=
  (List.lookup toolName reg).map ToolEntry.tool

/-! ## Agent orchestrator (`agent.ts`)

The agent's externally visible effects (transport writes, timer bookkeeping,
promise settlement) are modelled as explicit result values and event lists;
`Date.now()` and `crypto.randomUUID()` enter as arguments. -/

/-- The rejection reasons an `Agent` produces, with the exact `Error`
messages of `agent.ts`. -/
inductive AgentError where
  | stopped : AgentError
  | timedOut : AgentError
  | invalidResponseSignature : AgentError
  deriving DecidableEq

/-- The `Error` message text carried by each rejection. -/
def AgentError.message : AgentError → String
  | .stopped => "Agent stopped"
  | .timedOut => "Request timed out"
  | .invalidResponseSignature => "Invalid task response signature"

/-- A `PendingRequest` table entry (the resolve/reject callbacks settle the
caller's promise; the model records settlement as events). -/
structure PendingRequest where
  timer : Nat
  deriving DecidableEq

/-- Observable effects of the orchestrator's state transitions. -/
inductive AgentEvent where
  | transportStop : AgentEvent
  | cancelTimer (timer : Nat) : AgentEvent
  | rejectPending (taskId : String) (error : AgentError) : AgentEvent
  | resolvePending (taskId : String) (response : TaskResponse) : AgentEvent
  deriving DecidableEq

/-- `WireMessage` from `agent.ts`: the discriminated union written to and
read from the transport. -/
inductive WireMessage where
  | task (envelope : TaskEnvelope) : WireMessage
  | response (response : TaskResponse) : WireMessage
  | certExchange (cert : DelegationCert) : WireMessage

/-- A `TaskEnvelope` as a JSON value (field order as constructed in
`createTaskEnvelope`: the unsigned fields, then `signature`). -/
def taskEnvelopeJson (e : TaskEnvelope) : Json :=
  .obj [("taskId", .str e.taskId), ("from", .str e.«from»), ("to", .str e.«to»),
    ("tool", .str e.tool), ("payload", e.payload), ("timestamp", .num e.timestamp),
    ("signature", .str e.signature)]

/-- A `TaskResponse` as a JSON value. -/
def taskResponseJson (r : TaskResponse) : Json :=
  .obj [("taskId", .str r.taskId), ("from", .str r.«from»), ("result", r.result),
    ("timestamp", .num r.timestamp), ("signature", .str r.signature)]

/-- A `DelegationCert` as a JSON value. -/
def delegationCertJson (c : DelegationCert) : Json :=
  .obj [("owner", .str c.owner), ("agent", .str c.agent),
    ("scope", .arr (c.scope.map .str)), ("issuedAt", .num c.issuedAt),
    ("expiresAt", .num c.expiresAt), ("signature", .str c.signature)]

/-- The JSON value of a wire message, with the `type` tag first as in the
source's object literals. -/
def wireMessageJson : WireMessage → Json
  | .task e => .obj [("type", .str "task"), ("envelope", taskEnvelopeJson e)]
  | .response r => .obj [("type", .str "response"), ("response", taskResponseJson r)]
  | .certExchange c => .obj [("type", .str "cert-exchange"), ("cert", delegationCertJson c)]

/-- The bytes `Agent.request` hands to `transport.send`. -/
def requestWireBytes (identity : AgentIdentity) (peerId tool : String) (payload : Json)
    (taskId : String) (timestamp : Int) : List Char :=
  canonicalize (wireMessageJson (.task (createTaskEnvelope identity peerId tool payload
    taskId timestamp)))

/-- The bytes `Agent.exchangeCert` hands to `transport.send`. -/
def certExchangeWireBytes (cert : DelegationCert) : List Char :=
  canonicalize (wireMessageJson (.certExchange cert))

/-- The outcome of `Agent.handleTask` on one inbound envelope: the response
sent back, whether the tool table was consulted, and whether a handler ran. -/
structure HandleTaskResult where
  response : TaskResponse
  lookedUpTool : Bool
  invokedHandler : Bool

/-- `Agent.handleTask` from `agent.ts`: verify the signature, look up the
tool handler, validate the payload against the tool definition, execute the
handler; each failure is converted into a signed error response. -/
def handleTask (tools : ToolRegistry) (identity : AgentIdentity) (replyTs : Int)
    (envelope : TaskEnvelope) : HandleTaskResult :=
  if verifyTaskEnvelope envelope = false then
    { response := createTaskResponse identity envelope.taskId
        (.obj [("error", .str "invalid signature")]) replyTs,
      lookedUpTool := false, invokedHandler := false }
  else
    match getHandler tools envelope.tool with
    | none =>
      { response := createTaskResponse identity envelope.taskId
          (.obj [("error", .str ("unknown tool: " ++ envelope.tool))]) replyTs,
        lookedUpTool := true, invokedHandler := false }
    | some handler =>
      match getTool tools envelope.tool with
      | some tool =>
        match validatePayload tool envelope.payload with
        | .invalid err =>
          { response := createTaskResponse identity envelope.taskId
              (.obj [("error", .str err)]) replyTs,
            lookedUpTool := true, invokedHandler := false }
        | .valid =>
          match handler envelope.payload with
          | .ok result =>
            { response := createTaskResponse identity envelope.taskId result replyTs,
              lookedUpTool := true, invokedHandler := true }
          | .thrown msg =>
            { response := createTaskResponse identity envelope.taskId
                (.obj [("error", .str (msg.getD "handler failed"))]) replyTs,
              lookedUpTool := true, invokedHandler := true }
      | none =>
        match handler envelope.payload with
        | .ok result =>
          { response := createTaskResponse identity envelope.taskId result replyTs,
            lookedUpTool := true, invokedHandler := true }
        | .thrown msg =>
          { response := createTaskResponse identity envelope.taskId
              (.obj [("error", .str (msg.getD "handler failed"))]) replyTs,
            lookedUpTool := true, invokedHandler := true }

/-- The bytes `Agent.handleTask` sends back over the transport. -/
def taskReplyWireBytes (tools : ToolRegistry) (identity : AgentIdentity) (replyTs : Int)
    (envelope : TaskEnvelope) : List Char :=
  canonicalize (wireMessageJson (.response (handleTask tools identity replyTs
    envelope).response))

/-- `Agent.handleResponse` from `agent.ts`: look up the pending request by
`taskId`; if absent, discard silently; otherwise remove the entry, cancel its
timer, verify the response's signature, and resolve or reject the caller. -/
def handleResponse (pending : List (String × PendingRequest)) (response : TaskResponse) :
    List (String × PendingRequest) × List AgentEvent :=
  match List.lookup response.taskId pending with
  | none => (pending, [])
  | some p =>
    let pending' := mapDelete pending response.taskId
    if verifyTaskResponse response = false then
      (pending', [.cancelTimer p.timer,
        .rejectPending response.taskId .invalidResponseSignature])
    else
      (pending', [.cancelTimer p.timer, .resolvePending response.taskId response])

/-- `Agent.stop` from `agent.ts`: stop the transport, then clear each pending
request's timer, reject it with the "Agent stopped" error, and delete it. -/
def stopAgent (pending : List (String × PendingRequest)) :
    List AgentEvent × List (String × PendingRequest) :=
  (AgentEvent.transportStop ::
    pending.flatMap (fun p => [.cancelTimer p.2.timer, .rejectPending p.1 .stopped]),
   [])

/-- A response produced by `createTaskResponse` with a well-formed identity
verifies. -/
theorem verify_createTaskResponse (identity : AgentIdentity)
    (hid : identity.wellFormed) (taskId : String) (result : Json) (ts : Int) :
    verifyTaskResponse (createTaskResponse identity taskId result ts) = true := by
  simp only [verifyTaskResponse, createTaskResponse]
  rw [AgentIdentity.wellFormed] at hid
  rw [hid]
  exact verify_sign _ _

/-- C8: an inbound task whose envelope signature fails verification gets a
signed error response with error text `invalid signature`, with no capability
lookup and no handler execution. -/
theorem c8_invalid_signature_rejected (tools : ToolRegistry) (identity : AgentIdentity)
    (replyTs : Int) (envelope : TaskEnvelope)
    (hver : verifyTaskEnvelope envelope = false) (hid : identity.wellFormed) :
    (handleTask tools identity replyTs envelope).response =
      createTaskResponse identity envelope.taskId
        (.obj [("error", .str "invalid signature")]) replyTs ∧
    (handleTask tools identity replyTs envelope).lookedUpTool = false ∧
    (handleTask tools identity replyTs envelope).invokedHandler = false ∧
    verifyTaskResponse (handleTask tools identity replyTs envelope).response = true := by
  rw [handleTask, if_pos hver]
  exact ⟨rfl, rfl, rfl, verify_createTaskResponse identity hid _ _ _⟩

/-- Witness for C8: a concrete envelope whose payload was tampered with after
signing fails verification at the receiver, which answers with a signed
`invalid signature` error and touches no tool. -/
theorem c8_invalid_signature_rejected_witness :
    (handleTask [] ⟨pkOf 3, 3⟩ 50
        { createTaskEnvelope ⟨pkOf 5, 5⟩ (pkOf 3) "echo"
            (.obj [("message", .str "hello")]) "t1" 1000 with
          payload := Json.obj [("message", .str "tampered")] }).response =
      createTaskResponse ⟨pkOf 3, 3⟩ "t1"
        (.obj [("error", .str "invalid signature")]) 50 ∧
    (handleTask [] ⟨pkOf 3, 3⟩ 50
        { createTaskEnvelope ⟨pkOf 5, 5⟩ (pkOf 3) "echo"
            (.obj [("message", .str "hello")]) "t1" 1000 with
          payload := Json.obj [("message", .str "tampered")] }).lookedUpTool = false ∧
    (handleTask [] ⟨pkOf 3, 3⟩ 50
        { createTaskEnvelope ⟨pkOf 5, 5⟩ (pkOf 3) "echo"
            (.obj [("message", .str "hello")]) "t1" 1000 with
          payload := Json.obj [("message", .str "tampered")] }).invokedHandler = false ∧
    verifyTaskResponse (handleTask [] ⟨pkOf 3, 3⟩ 50
        { createTaskEnvelope ⟨pkOf 5, 5⟩ (pkOf 3) "echo"
            (.obj [("message", .str "hello")]) "t1" 1000 with
          payload := Json.obj [("message", .str "tampered")] }).response = true :=
  c8_invalid_signature_rejected [] ⟨pkOf 3, 3⟩ 50 _ (by decide) rfl

/-- C3 counterexample: a verified inbound task for the unregistered tool
`echo` is answered with error text `unknown tool: echo`, not the
`unknown capability: echo` the claim states. -/
theorem c3_counterexample :
    (handleTask [] ⟨pkOf 3, 3⟩ 50
        (createTaskEnvelope ⟨pkOf 5, 5⟩ (pkOf 3) "echo"
          (.obj [("message", .str "hello")]) "t1" 1000)).response.result =
      Json.obj [("error", .str "unknown tool: echo")] ∧
    (handleTask [] ⟨pkOf 3, 3⟩ 50
        (createTaskEnvelope ⟨pkOf 5, 5⟩ (pkOf 3) "echo"
          (.obj [("message", .str "hello")]) "t1" 1000)).response.result ≠
      Json.obj [("error", .str "unknown capability: echo")] := by
  constructor
  · rfl
  · decide

/-- C3 (amended): an inbound task whose envelope verifies but whose tool has
no registered handler is answered with a signed error response whose error
text is `unknown tool: <name>`, and no handler is invoked. -/
theorem c3_unknown_tool_error (tools : ToolRegistry) (identity : AgentIdentity)
    (replyTs : Int) (envelope : TaskEnvelope)
    (hver : verifyTaskEnvelope envelope = true)
    (habs : getHandler tools envelope.tool = none) (hid : identity.wellFormed) :
    (handleTask tools identity replyTs envelope).response =
      createTaskResponse identity envelope.taskId
        (.obj [("error", .str ("unknown tool: " ++ envelope.tool))]) replyTs ∧
    (handleTask tools identity replyTs envelope).invokedHandler = false ∧
    (handleTask tools identity replyTs envelope).lookedUpTool = true ∧
    verifyTaskResponse (handleTask tools identity replyTs envelope).response = true := by
  rw [handleTask, if_neg (by rw [hver]; simp), habs]
  exact ⟨rfl, rfl, rfl, verify_createTaskResponse identity hid _ _ _⟩

/-- Witness for C3 (amended) at a concrete verified envelope for the
unregistered tool `echo`. -/
theorem c3_unknown_tool_error_witness :
    (handleTask [] ⟨pkOf 3, 3⟩ 50
        (createTaskEnvelope ⟨pkOf 5, 5⟩ (pkOf 3) "echo"
          (.obj [("message", .str "hello")]) "t1" 1000)).response =
      createTaskResponse ⟨pkOf 3, 3⟩ "t1"
        (.obj [("error", .str ("unknown tool: " ++ "echo"))]) 50 ∧
    (handleTask [] ⟨pkOf 3, 3⟩ 50
        (createTaskEnvelope ⟨pkOf 5, 5⟩ (pkOf 3) "echo"
          (.obj [("message", .str "hello")]) "t1" 1000)).invokedHandler = false ∧
    (handleTask [] ⟨pkOf 3, 3⟩ 50
        (createTaskEnvelope ⟨pkOf 5, 5⟩ (pkOf 3) "echo"
          (.obj [("message", .str "hello")]) "t1" 1000)).lookedUpTool = true ∧
    verifyTaskResponse (handleTask [] ⟨pkOf 3, 3⟩ 50
        (createTaskEnvelope ⟨pkOf 5, 5⟩ (pkOf 3) "echo"
          (.obj [("message", .str "hello")]) "t1" 1000)).response = true :=
  c3_unknown_tool_error [] ⟨pkOf 3, 3⟩ 50 _ (by decide) rfl rfl

/-- C10: for any tool other than the standard `quokkamesh/llm-message` tool,
a payload that is null, an array, or not of object type is rejected by
`validatePayload` with `Payload must be an object` — even when the tool
declares no parameters schema — and `handleTask` never invokes such a tool's
handler on such a payload. -/
theorem c10_nonobject_payload_rejected :
    (∀ (tool : Tool) (payload : Json), tool.name ≠ LLM_MESSAGE_TOOL_NAME →
      isNonObjectPayload payload = true →
      validatePayload tool payload = .invalid "Payload must be an object") ∧
    (∀ (tools : ToolRegistry) (identity : AgentIdentity) (replyTs : Int)
      (envelope : TaskEnvelope) (tool : Tool),
      getTool tools envelope.tool = some tool → tool.name ≠ LLM_MESSAGE_TOOL_NAME →
      isNonObjectPayload envelope.payload = true →
      (handleTask tools identity replyTs envelope).invokedHandler = false) := by
  have hval : ∀ (tool : Tool) (payload : Json), tool.name ≠ LLM_MESSAGE_TOOL_NAME →
      isNonObjectPayload payload = true →
      validatePayload tool payload = .invalid "Payload must be an object" := by
    intro tool payload hname hno
    cases payload <;> simp_all [validatePayload, isNonObjectPayload]
  refine ⟨hval, ?_⟩
  intro tools identity replyTs envelope tool hget hname hno
  have hentry : ∃ entry, List.lookup envelope.tool tools = some entry ∧ entry.tool = tool := by
    rw [getTool] at hget
    cases hl : List.lookup envelope.tool tools with
    | none => rw [hl] at hget; simp at hget
    | some entry =>
      rw [hl] at hget
      simp only [Option.map] at hget
      exact ⟨entry, rfl, Option.some.inj hget⟩
  obtain ⟨entry, hl, hentryTool⟩ := hentry
  have hh : getHandler tools envelope.tool = some entry.handler := by
    rw [getHandler, hl]
    rfl
  by_cases hv : verifyTaskEnvelope envelope = false
  · rw [handleTask, if_pos hv]
  · simp only [handleTask, if_neg hv, hh, hget, hval tool envelope.payload hname hno]

/-- Witness for C10: a schema-less tool `sum` registered with a handler; a
numeric payload is rejected by validation and the handler does not run. -/
theorem c10_nonobject_payload_rejected_witness :
    validatePayload ⟨"sum", "adds", none⟩ (.num 5) =
      .invalid "Payload must be an object" ∧
    (handleTask [("sum", ⟨⟨"sum", "adds", none⟩, fun _ => .ok .null⟩)] ⟨pkOf 3, 3⟩ 50
        (createTaskEnvelope ⟨pkOf 5, 5⟩ (pkOf 3) "sum" (.num 5) "t1" 1000)).invokedHandler =
      false := by
  constructor
  · exact c10_nonobject_payload_rejected.1 ⟨"sum", "adds", none⟩ (.num 5)
      (by decide) rfl
  · exact c10_nonobject_payload_rejected.2
      [("sum", ⟨⟨"sum", "adds", none⟩, fun _ => .ok .null⟩)] ⟨pkOf 3, 3⟩ 50
      (createTaskEnvelope ⟨pkOf 5, 5⟩ (pkOf 3) "sum" (.num 5) "t1" 1000)
      ⟨"sum", "adds", none⟩ rfl (by decide) rfl

/-- C9: an inbound task result with no matching pending request is discarded
silently with no state change and no settlement; a matching one has its entry
removed and its timer cancelled, and the caller is resolved with the result
when its signature verifies, or rejected with the invalid-signature error
when it does not. -/
theorem c9_handleResponse_correlation
    (pending : List (String × PendingRequest)) (response : TaskResponse) :
    (List.lookup response.taskId pending = none →
      handleResponse pending response = (pending, [])) ∧
    (∀ p, List.lookup response.taskId pending = some p →
      (handleResponse pending response).1 = mapDelete pending response.taskId ∧
      (verifyTaskResponse response = true →
        (handleResponse pending response).2 =
          [.cancelTimer p.timer, .resolvePending response.taskId response]) ∧
      (verifyTaskResponse response = false →
        (handleResponse pending response).2 =
          [.cancelTimer p.timer,
            .rejectPending response.taskId .invalidResponseSignature])) := by
  constructor
  · intro habs
    rw [handleResponse, habs]
  · intro p hp
    refine ⟨?_, ?_, ?_⟩
    · simp only [handleResponse, hp]
      by_cases hv : verifyTaskResponse response = false
      · rw [if_pos hv]
      · rw [if_neg hv]
    · intro hv
      simp only [handleResponse, hp, if_neg (show ¬verifyTaskResponse response = false by
        rw [hv]; simp)]
    · intro hv
      simp only [handleResponse, hp, if_pos hv]

/-- Witness for C9: a concrete table with one pending entry; a late result
for an unknown task id is dropped with no state change, a genuine result
settles the caller, a tampered one rejects it. -/
theorem c9_handleResponse_correlation_witness :
    handleResponse [("t1", ⟨77⟩)]
      (createTaskResponse ⟨pkOf 5, 5⟩ "t9" (.str "late") 10) = ([("t1", ⟨77⟩)], []) ∧
    (handleResponse [("t1", ⟨77⟩)]
      (createTaskResponse ⟨pkOf 5, 5⟩ "t1" (.str "ok") 10)).2 =
      [.cancelTimer 77, .resolvePending "t1"
        (createTaskResponse ⟨pkOf 5, 5⟩ "t1" (.str "ok") 10)] ∧
    (handleResponse [("t1", ⟨77⟩)]
      { createTaskResponse ⟨pkOf 5, 5⟩ "t1" (.str "ok") 10 with
        signature := mkSig (pkOf 9) [] }).2 =
      [.cancelTimer 77, .rejectPending "t1" .invalidResponseSignature] := by
  refine ⟨?_, ?_, ?_⟩
  · exact (c9_handleResponse_correlation [("t1", ⟨77⟩)]
      (createTaskResponse ⟨pkOf 5, 5⟩ "t9" (.str "late") 10)).1 (by decide)
  · exact ((c9_handleResponse_correlation [("t1", ⟨77⟩)]
      (createTaskResponse ⟨pkOf 5, 5⟩ "t1" (.str "ok") 10)).2 ⟨77⟩ (by decide)).2.1
      (by decide)
  · exact ((c9_handleResponse_correlation [("t1", ⟨77⟩)]
      { createTaskResponse ⟨pkOf 5, 5⟩ "t1" (.str "ok") 10 with
        signature := mkSig (pkOf 9) [] }).2 ⟨77⟩ (by decide)).2.2 (by decide)

/-- C4 counterexample: stopping an agent with one outstanding request
produces the event sequence `[transportStop, cancelTimer, reject]` — no
rejection event precedes the transport release, contradicting the claimed
ordering. -/
theorem c4_counterexample :
    ¬ ∃ i j : Fin (stopAgent [("t1", ⟨7⟩)]).1.length, i < j ∧
      (stopAgent [("t1", ⟨7⟩)]).1.get i = .rejectPending "t1" .stopped ∧
      (stopAgent [("t1", ⟨7⟩)]).1.get j = .transportStop := by decide

/-- C4 (amended): `Agent.stop` releases the transport first, and then rejects
every still-pending request with the "Agent stopped" error and cancels its
timer; afterwards no `PendingRequest` remains in the table. -/
theorem c4_stop_rejects_all_pending (pending : List (String × PendingRequest)) :
    (stopAgent pending).2 = [] ∧
    (stopAgent pending).1.head? = some .transportStop ∧
    (∀ tid p, (tid, p) ∈ pending →
      AgentEvent.cancelTimer p.timer ∈ (stopAgent pending).1 ∧
      AgentEvent.rejectPending tid .stopped ∈ (stopAgent pending).1) := by
  refine ⟨rfl, rfl, ?_⟩
  intro tid p hm
  constructor
  · rw [stopAgent]
    exact List.mem_cons_of_mem _ (List.mem_flatMap.mpr ⟨(tid, p), hm, by simp⟩)
  · rw [stopAgent]
    exact List.mem_cons_of_mem _ (List.mem_flatMap.mpr ⟨(tid, p), hm, by simp⟩)

/-- Witness for C4 (amended) at a concrete one-entry pending table. -/
theorem c4_stop_rejects_all_pending_witness :
    AgentEvent.cancelTimer 7 ∈ (stopAgent [("t1", ⟨7⟩)]).1 ∧
    AgentEvent.rejectPending "t1" .stopped ∈ (stopAgent [("t1", ⟨7⟩)]).1 :=
  (c4_stop_rejects_all_pending [("t1", ⟨7⟩)]).2.2 "t1" ⟨7⟩ (by decide)

/-- The wire-message shape asserted by the spec: a union tagged by a field
named `kind` with values `task`, `result` and `certificate`, carrying
`envelope`, `result` and `cert` respectively.  (Stated from the spec's words
for comparison against `WireMessage`, whose encoding the code actually
uses.) -/
inductive ClaimedWireMessage where
  | task (envelope : TaskEnvelope) : ClaimedWireMessage
  | result (result : TaskResponse) : ClaimedWireMessage
  | certificate (cert : DelegationCert) : ClaimedWireMessage

/-- The JSON value of the spec's claimed wire-message union. -/
def claimedWireJson : ClaimedWireMessage → Json
  | .task e => .obj [("kind", .str "task"), ("envelope", taskEnvelopeJson e)]
  | .result r => .obj [("kind", .str "result"), ("result", taskResponseJson r)]
  | .certificate c => .obj [("kind", .str "certificate"), ("cert", delegationCertJson c)]

/-- C5 counterexample: the bytes `Agent.request` actually sends for a
concrete request are not the canonical encoding of any value of the claimed
`kind`-tagged union — the code tags with a field named `type` and the values
`task` / `response` / `cert-exchange`. -/
theorem c5_counterexample :
    ¬ ∃ m : ClaimedWireMessage,
      requestWireBytes ⟨pkOf 5, 5⟩ (pkOf 3) "echo" (.obj [("message", .str "hello")])
        "t1" 1000 = canonicalize (claimedWireJson m) := by
  rintro ⟨m, hm⟩
  cases m with
  | task e =>
    have hshape : canonicalize (claimedWireJson (.task e)) =
        "\x7b\"envelope\":".data ++
          (Encoding.stringifyJ (sortKeysJ (taskEnvelopeJson e)) ++
            ",\"kind\":\"task\"\x7d".data) := rfl
    rw [hshape] at hm
    have hr := congrArg (fun l => List.take 15 l.reverse) hm
    simp only [List.reverse_append, List.append_assoc] at hr
    rw [show (15 : Nat) = ",\"kind\":\"task\"\x7d".data.reverse.length from rfl,
      List.take_left] at hr
    exact absurd hr (by decide)
  | result r =>
    have hshape : canonicalize (claimedWireJson (.result r)) =
        "\x7b\"kind\":\"result\",\"result\":".data ++
          (Encoding.stringifyJ (sortKeysJ (taskResponseJson r)) ++
            [Encoding.rbrace]) := rfl
    rw [hshape] at hm
    have ht := congrArg (List.take ("\x7b\"kind\":\"result\",\"result\":".data.length)) hm
    rw [List.take_left] at ht
    exact absurd ht (by decide)
  | certificate c =>
    have hshape : canonicalize (claimedWireJson (.certificate c)) =
        "\x7b\"cert\":".data ++
          (Encoding.stringifyJ (sortKeysJ (delegationCertJson c)) ++
            ",\"kind\":\"certificate\"\x7d".data) := rfl
    rw [hshape] at hm
    have ht := congrArg (List.take ("\x7b\"cert\":".data.length)) hm
    rw [List.take_left] at ht
    exact absurd ht (by decide)

/-- C5 (amended): every outbound wire write — a task request, a task reply,
or a certificate exchange — is the canonical encoding of the `WireMessage`
union with exactly three shapes, tagged by a field named `type` with values
`task`, `response` and `cert-exchange` carrying `envelope`, `response` and
`cert` respectively. -/
theorem c5_wire_message_shapes :
    (∀ (identity : AgentIdentity) (peerId tool : String) (payload : Json)
      (taskId : String) (ts : Int),
      requestWireBytes identity peerId tool payload taskId ts =
        canonicalize (wireMessageJson
          (.task (createTaskEnvelope identity peerId tool payload taskId ts)))) ∧
    (∀ (tools : ToolRegistry) (identity : AgentIdentity) (replyTs : Int)
      (envelope : TaskEnvelope),
      taskReplyWireBytes tools identity replyTs envelope =
        canonicalize (wireMessageJson
          (.response (handleTask tools identity replyTs envelope).response))) ∧
    (∀ cert : DelegationCert,
      certExchangeWireBytes cert = canonicalize (wireMessageJson (.certExchange cert))) ∧
    (∀ e, wireMessageJson (.task e) =
      .obj [("type", .str "task"), ("envelope", taskEnvelopeJson e)]) ∧
    (∀ r, wireMessageJson (.response r) =
      .obj [("type", .str "response"), ("response", taskResponseJson r)]) ∧
    (∀ c, wireMessageJson (.certExchange c) =
      .obj [("type", .str "cert-exchange"), ("cert", delegationCertJson c)]) :=
  ⟨fun _ _ _ _ _ _ => rfl, fun _ _ _ _ => rfl, fun _ => rfl,
    fun _ => rfl, fun _ => rfl, fun _ => rfl⟩
